import Mathlib

/-!
Verification of `find_char_limit.py` (LMArenaBridge character-limit finder).

The script probes an HTTP chat-completions endpoint with prompts of varying
length and narrows down the maximum accepted prompt length in two phases:
a coarse linear descent (`find_char_limit`, Phase 1) followed by an integer
bisection (`binary_search`, Phase 2).

This file is a shallow embedding of the script:
 * `generate_test_prompt` embeds the prompt generator (strings as `List Char`);
 * `test_request` embeds the probe client, with the HTTP outcome abstracted
   into the inductive `ReqOutcome` and Python exception flow made explicit
   via `Except` (`tryBody` is the `try` block, `handle` the `except` chain);
 * `phase1Loop` / `bsLoop` embed the two search loops, parameterised by a
   success oracle `Int → Bool` (one outcome per tested length; each length
   is probed at most once, so this captures every sequence of probe
   outcomes) and fuelled to make the while-loops structurally recursive;
   both loops also record the trace of probe and sleep events;
 * `find_char_limit` composes the phases exactly as the script does,
   including the Python truthiness test `if first_failure_length and
   last_success_length:`.
-/

namespace CharLimit

/-! ### Prompt generator (`generate_test_prompt`, lines 49-58) -/

/-- The cycle string `"abcdefghijklmnopqrstuvwxyz0123456789 "` from
line 55, as a list of characters. -/
def base_text : List Char :=
  "abcdefghijklmnopqrstuvwxyz0123456789 ".toList

/-- Embedding of `generate_test_prompt` (lines 49-58):
`repeat_count = length // len(base_text)`, `remainder = length % len(base_text)`,
returns `base_text * repeat_count + base_text[:remainder]`. -/
def generate_test_prompt (length : Nat) : List Char :=
  let repeat_count := length / base_text.length
  let remainder := length % base_text.length
  (List.replicate repeat_count base_text).flatten ++ base_text.take remainder

/-- The builder described by the spec: repeat a fixed `cycle` and truncate
the final repetition to fit the requested length.  Stated separately from
`generate_test_prompt` so that the spec's claim about a 38-character cycle
can be compared against the code. -/
def specGenerate (cycle : List Char) (length : Nat) : List Char :=
  (List.replicate (length / cycle.length) cycle).flatten ++
    cycle.take (length % cycle.length)

/-! ### Probe client (`test_request`, lines 60-121) -/

/-- A JSON value, as produced by `response.json()`. Numbers are modelled as
integers (the fields the script touches are strings and lists). -/
inductive Json where
  | null : Json
  | bool : Bool → Json
  | num : Int → Json
  | str : String → Json
  | arr : List Json → Json
  | obj : List (String × Json) → Json

/-- A Python exception, reduced to its type name and message. -/
structure ExcInfo where
  name : String
  msg : String
deriving DecidableEq

/-- Python dict lookup `d.get(key, default)`: returns the value for `key`
(or `default` when absent) when `d` is a dict, raises `AttributeError`
otherwise. -/
def pyGet (j : Json) (key : String) (dflt : Json) : Except ExcInfo Json :=
  match j with
  | Json.obj kvs => Except.ok ((kvs.lookup key).getD dflt)
  | _ => Except.error ⟨"AttributeError", "object has no attribute get"⟩

/-- Python subscript `x[0]` on a JSON value: first element of a nonempty
list, first character of a nonempty string; everything else raises. -/
def pyIndexZero (j : Json) : Except ExcInfo Json :=
  match j with
  | Json.arr [] => Except.error ⟨"IndexError", "list index out of range"⟩
  | Json.arr (c :: _) => Except.ok c
  | Json.str s =>
    match s.toList with
    | [] => Except.error ⟨"IndexError", "string index out of range"⟩
    | c :: _ => Except.ok (Json.str (String.mk [c]))
  | Json.obj _ => Except.error ⟨"KeyError", "0"⟩
  | _ => Except.error ⟨"TypeError", "object is not subscriptable"⟩

/-- Python `len(x)` on a JSON value: length of a string, list or dict;
raises `TypeError` otherwise. -/
def pyLen (j : Json) : Except ExcInfo Int :=
  match j with
  | Json.str s => Except.ok s.length
  | Json.arr l => Except.ok l.length
  | Json.obj kvs => Except.ok kvs.length
  | _ => Except.error ⟨"TypeError", "object has no len"⟩

/-- Lines 99-101: `result = response.json()` followed by
`result.get("choices", [{}])[0].get("message", {}).get("content", "")` and
the `len(response_text)` evaluated inside the success log line.  The body is
carried as `Option Json`: `none` means the body is not valid JSON, so
`response.json()` raises. -/
def extractLog (body : Option Json) : Except ExcInfo Int := do
  let result ← match body with
    | none => Except.error ⟨"JSONDecodeError", "Expecting value"⟩
    | some j => Except.ok j
  let choices ← pyGet result "choices" (Json.arr [Json.obj []])
  let c0 ← pyIndexZero choices
  let message ← pyGet c0 "message" (Json.obj [])
  let content ← pyGet message "content" (Json.str "")
  pyLen content

/-- The outcome of `await client.post(...)` for one probe: either a response
arrived (with status code, optional parsed JSON body, and raw text), or the
call raised one of the exceptions the script handles. -/
inductive ReqOutcome where
  | response (status : Nat) (body : Option Json) (text : String) : ReqOutcome
  | timeout : ReqOutcome
  | httpStatusError (status : Nat) (text : String) : ReqOutcome
  | transportError (name msg : String) : ReqOutcome

/-- The exceptions that can escape the `try` block of `test_request`,
keyed by which `except` clause catches them. -/
inductive PyExc where
  | timeoutExc : PyExc
  | httpStatusExc (status : Nat) (text : String) : PyExc
  | generic (name msg : String) : PyExc

/-- The `try` block of `test_request` (lines 88-106): may raise. A 200
response runs the logging extraction, whose exception (if any) escapes as a
generic exception; any other status returns
`(False, "Status {code}: {text[:200]}")`. -/
def tryBody (_timeout : Nat) (o : ReqOutcome) :
    Except PyExc (Bool × Option String) :=
  match o with
  | ReqOutcome.timeout => Except.error PyExc.timeoutExc
  | ReqOutcome.httpStatusError st text => Except.error (PyExc.httpStatusExc st text)
  | ReqOutcome.transportError name msg => Except.error (PyExc.generic name msg)
  | ReqOutcome.response status body text =>
    if status = 200 then
      match extractLog body with
      | Except.ok _ => Except.ok (true, none)
      | Except.error e => Except.error (PyExc.generic e.name e.msg)
    else
      Except.ok (false, some ("Status " ++ toString status ++ ": " ++ text.take 200))

/-- The `except` chain of `test_request` (lines 108-121): converts every
exception into a `(False, error_msg)` result. -/
def handle (timeout : Nat) (r : Except PyExc (Bool × Option String)) :
    Bool × Option String :=
  match r with
  | Except.ok v => v
  | Except.error PyExc.timeoutExc =>
    (false, some ("Request timed out after " ++ toString timeout ++ "s"))
  | Except.error (PyExc.httpStatusExc st text) =>
    (false, some ("HTTP error " ++ toString st ++ ": " ++ text.take 200))
  | Except.error (PyExc.generic name msg) =>
    (false, some ("Unexpected error: " ++ name ++ ": " ++ msg))

/-- Embedding of `test_request` (lines 60-121): the `try` block wrapped in
the `except` chain.  Total: always returns a `(succeeded, errorDetail)`
pair. -/
def test_request (timeout : Nat) (o : ReqOutcome) : Bool × Option String :=
  handle timeout (tryBody timeout o)

/-! ### The two search loops

Both loops call `test_request` and branch only on its boolean; the outcome
of probing a given length is abstracted into an oracle `Int → Bool`.
Each loop also records its observable events: probes and the
`await asyncio.sleep(2)` delays. -/

/-- An observable event of a search run: one probe (tested length and
outcome) or one fixed inter-probe delay (`await asyncio.sleep(2)`). -/
inductive Event where
  | probe (len : Int) (ok : Bool) : Event
  | sleep : Event
deriving DecidableEq

/-- The lengths probed in a trace, in order. -/
def testedLengths (evs : List Event) : List Int :=
  evs.filterMap fun e =>
    match e with
    | Event.probe l _ => some l
    | Event.sleep => none

/-- Folds a trace to the length of its last successful probe, starting from
`init` (the value `last_success` is initialised with). -/
def lastSuccess (init : Int) : List Event → Int
  | [] => init
  | Event.probe l true :: rest => lastSuccess l rest
  | Event.probe _ false :: rest => lastSuccess init rest
  | Event.sleep :: rest => lastSuccess init rest

/-- Every probe in the trace is immediately followed by a delay. -/
def allProbesSlept : List Event → Bool
  | [] => true
  | Event.probe _ _ :: Event.sleep :: rest => allProbesSlept rest
  | Event.probe _ _ :: _ => false
  | Event.sleep :: rest => allProbesSlept rest

/-- Every failed probe in the trace is immediately followed by a delay. -/
def failedProbesSlept : List Event → Bool
  | [] => true
  | Event.probe _ false :: Event.sleep :: rest => failedProbesSlept rest
  | Event.probe _ false :: _ => false
  | Event.probe _ true :: rest => failedProbesSlept rest
  | Event.sleep :: rest => failedProbesSlept rest

/-! ### Phase 2: `binary_search` (lines 123-148) -/

/-- One iteration of the `binary_search` loop body (lines 134-143), acting
on the state `(min_len, max_len, last_success)`:
`mid = (min_len + max_len) // 2`; on success `last_success = mid;
min_len = mid + 1`; on failure `max_len = mid - 1`.  (Python `//` on ints
is floor division, which is `Int` `/` — Euclidean division — for the
positive divisor 2.) -/
def bsStep (oracle : Int → Bool) (s : Int × Int × Int) : Int × Int × Int :=
  let mid := (s.1 + s.2.1) / 2
  if oracle mid then (mid + 1, s.2.1, mid) else (s.1, mid - 1, s.2.2)

/-- The `while max_len - min_len > step` loop of `binary_search`
(lines 133-147), with explicit fuel.  Returns the final
`(min_len, max_len, last_success)` state and the event trace
(each iteration: one probe, then one sleep), or `none` if the fuel runs
out before the loop condition fails. -/
def bsLoop (oracle : Int → Bool) (step : Int) :
    Nat → Int → Int → Int → Option (Int × Int × Int × List Event)
  | fuel, min_len, max_len, last_success =>
    if max_len - min_len ≤ step then
      some (min_len, max_len, last_success, [])
    else
      match fuel with
      | 0 => none
      | fuel' + 1 =>
        let mid := (min_len + max_len) / 2
        let s := bsStep oracle (min_len, max_len, last_success)
        match bsLoop oracle step fuel' s.1 s.2.1 s.2.2 with
        | none => none
        | some (mn, mx, l, evs) =>
          some (mn, mx, l, Event.probe mid (oracle mid) :: Event.sleep :: evs)

/-- Embedding of `binary_search(min_len, max_len, step)` (lines 123-148):
runs the loop with `last_success = min_len` and returns `last_success`
together with the event trace. -/
def binary_search (oracle : Int → Bool) (min_len max_len step : Int)
    (fuel : Nat) : Option (Int × List Event) :=
  (bsLoop oracle step fuel min_len max_len min_len).map
    fun r => (r.2.2.1, r.2.2.2)

/-! ### Phase 1 and the driver: `find_char_limit` (lines 150-225) -/

/-- The Phase 1 loop of `find_char_limit` (lines 180-193):
`while current_length >= MIN_LENGTH`, probe; on success record
`last_success_length = current_length` and `break` (before the sleep); on
failure record `first_failure_length = current_length`, decrement by
`stepSize` and sleep.  Returns
`(last_success_length, first_failure_length, events)`, or `none` if the
fuel runs out. -/
def phase1Loop (oracle : Int → Bool) (minLength stepSize : Int) :
    Nat → Int → Option Int → Option (Option Int × Option Int × List Event)
  | fuel, current, firstFailure =>
    if current < minLength then
      some (none, firstFailure, [])
    else
      match fuel with
      | 0 => none
      | fuel' + 1 =>
        if oracle current then
          some (some current, firstFailure, [Event.probe current true])
        else
          match phase1Loop oracle minLength stepSize fuel'
              (current - stepSize) (some current) with
          | none => none
          | some (ls, ff, evs) =>
            some (ls, ff, Event.probe current false :: Event.sleep :: evs)

/-- Result of one full run of the script's search. -/
structure RunResult where
  answer : Option Int
  phase2Invoked : Bool
  phase1Events : List Event
  phase2Events : List Event
deriving DecidableEq

/-- Embedding of `find_char_limit` (lines 150-225), parameterised by the
configuration constants.  Phase 1 runs first; if it found no working
length the function returns early (line 195-197).  Phase 2 runs only under
the Python-truthiness guard `if first_failure_length and
last_success_length:` (line 200) — an `int` is truthy iff nonzero, `None`
is falsy — and is entered as
`binary_search(last_success_length, first_failure_length, step)`
(lines 205-209), whose result replaces `last_success_length`. -/
def find_char_limit (oracle : Int → Bool)
    (startingLength stepSize minLength precisionStep : Int)
    (fuel1 fuel2 : Nat) : Option RunResult :=
  match phase1Loop oracle minLength stepSize fuel1 startingLength none with
  | none => none
  | some (none, _, evs) => some ⟨none, false, evs, []⟩
  | some (some ls, ff, evs) =>
    match ff with
    | none => some ⟨some ls, false, evs, []⟩
    | some f =>
      if f != 0 && ls != 0 then
        match bsLoop oracle precisionStep fuel2 ls f ls with
        | none => none
        | some (_, _, last, evs2) => some ⟨some last, true, evs, evs2⟩
      else
        some ⟨some ls, false, evs, []⟩

/-! ## Theorems -/

set_option maxRecDepth 8000

/-! ### Prompt generator -/

lemma flatten_replicate_length {α : Type} (n : Nat) (l : List α) :
    (List.replicate n l).flatten.length = n * l.length := by
  induction n with
  | zero => simp
  | succ k ih => simp [List.replicate_succ, ih, Nat.succ_mul]; ring

lemma mem_flatten_replicate {α : Type} {n : Nat} {l : List α} {c : α}
    (h : c ∈ (List.replicate n l).flatten) : c ∈ l := by
  rcases List.mem_flatten.1 h with ⟨a, ha, hc⟩
  rcases List.eq_of_mem_replicate ha with rfl
  exact hc

lemma base_text_length : base_text.length = 37 := by decide

/-- Claim C4, amended: the prompt generator returns, for every
non-negative `L`, a string of exactly `L` characters drawn from the fixed
37-character alphanumeric-plus-space cycle `base_text`, built by repeating
the cycle and truncating the final repetition to fit. -/
theorem generate_length_and_alphabet :
    base_text.length = 37 ∧
    ∀ L : Nat,
      (generate_test_prompt L).length = L ∧
      (∀ c ∈ generate_test_prompt L, c ∈ base_text) ∧
      generate_test_prompt L = specGenerate base_text L := by
  refine ⟨base_text_length, fun L => ⟨?_, fun c hc => ?_, rfl⟩⟩
  · simp only [generate_test_prompt, List.length_append,
      flatten_replicate_length, List.length_take, base_text_length]
    omega
  · rcases List.mem_append.1 hc with h | h
    · exact mem_flatten_replicate h
    · exact List.take_subset _ _ h

/-- Claim C4, counterexample: no 38-character cycle can build
`generate_test_prompt` by repetition and truncation (the code's cycle has
37 characters, so position 38 of the generated text restarts the cycle one
position earlier than a 38-character cycle would). -/
theorem generate_no_38_cycle :
    ¬ ∃ cycle : List Char, cycle.length = 38 ∧
        ∀ L : Nat, generate_test_prompt L = specGenerate cycle L := by
  rintro ⟨cyc, hlen, hall⟩
  have h38 := hall 38
  have h39 := hall 39
  simp only [specGenerate, hlen] at h38 h39
  norm_num at h38 h39
  rw [← h38] at h39
  exact absurd h39 (by decide)

/-! ### Probe client -/

/-- Whether an `Except` computation succeeded. -/
def exOk {ε α : Type} : Except ε α → Bool
  | Except.ok _ => true
  | Except.error _ => false

/-- Claim C5, counterexample: an HTTP 200 response whose JSON body has an
empty `choices` list is classified as a failure — the logging extraction
raises `IndexError`, which the catch-all handler turns into
`succeeded=false`.  So a 200 status does not yield success regardless of
the body, and the extraction does affect the classification. -/
theorem status200_not_always_success :
    test_request 60 (ReqOutcome.response 200
        (some (Json.obj [("choices", Json.arr [])])) "")
      = (false, some "Unexpected error: IndexError: list index out of range") := by
  rfl

/-- Claim C5, amended: a probe whose HTTP response has status 200 returns
`succeeded=true` exactly when the logging extraction of the first choice's
message content raises no exception; when the extraction raises (body not
valid JSON, empty `choices` list, ...), the probe returns
`succeeded=false` with the exception reported in `errorDetail`. -/
theorem status200_success_iff_extraction (timeout : Nat) (body : Option Json)
    (text : String) :
    ((test_request timeout (ReqOutcome.response 200 body text)).1 = true ↔
        exOk (extractLog body) = true) ∧
    (∀ e, extractLog body = Except.error e →
        test_request timeout (ReqOutcome.response 200 body text)
          = (false, some ("Unexpected error: " ++ e.name ++ ": " ++ e.msg))) := by
  constructor
  · cases h : extractLog body <;>
      simp [test_request, tryBody, handle, exOk, h]
  · intro e he
    simp [test_request, tryBody, handle, he]

/-- Claim C5, amended, witness: a concrete 200 response with an empty
`choices` list, where the extraction raises `IndexError` and the probe
returns failure. -/
theorem status200_success_iff_extraction_witness :
    test_request 60 (ReqOutcome.response 200
        (some (Json.obj [("choices", Json.arr [])])) "body text")
      = (false, some "Unexpected error: IndexError: list index out of range") :=
  (status200_success_iff_extraction 60
      (some (Json.obj [("choices", Json.arr [])])) "body text").2
    ⟨"IndexError", "list index out of range"⟩ rfl

/-- Claim C6: every non-success outcome is classified as a failure: a
non-200 status yields `succeeded=false` with `errorDetail` built from the
first 200 characters of the response body; a timeout yields
`succeeded=false` with a timeout message (no HTTP status in it); any other
transport failure yields `succeeded=false` with a failure description. -/
theorem failure_classification (timeout st : Nat) (body : Option Json)
    (text name msg : String) :
    (st ≠ 200 → test_request timeout (ReqOutcome.response st body text)
        = (false, some ("Status " ++ toString st ++ ": " ++ text.take 200))) ∧
    test_request timeout ReqOutcome.timeout
      = (false, some ("Request timed out after " ++ toString timeout ++ "s")) ∧
    test_request timeout (ReqOutcome.transportError name msg)
      = (false, some ("Unexpected error: " ++ name ++ ": " ++ msg)) := by
  refine ⟨fun h => ?_, rfl, rfl⟩
  simp [test_request, tryBody, handle, h]

/-- Claim C6, witness: a concrete 413 response, classified as a failure
with the truncated body in the message. -/
theorem failure_classification_witness :
    (413 ≠ 200) ∧
    test_request 60 (ReqOutcome.response 413 none "Payload Too Large")
      = (false, some "Status 413: Payload Too Large") :=
  ⟨by decide,
    (failure_classification 60 413 none "Payload Too Large" "x" "y").1
      (by decide)⟩

/-- Claim C10: the probe function is total at its public interface.  For
every request outcome — including a 200 response whose body is not valid
JSON or whose `choices` list is empty — either the `try` block returns
normally and `test_request` returns its value, or the `try` block raises
and the `except` chain converts the exception into a
`(succeeded=false, errorDetail)` pair; no exception propagates. -/
theorem test_request_total :
    (∀ (timeout : Nat) (o : ReqOutcome),
      (∃ r, tryBody timeout o = Except.ok r ∧ test_request timeout o = r) ∨
      (∃ e, tryBody timeout o = Except.error e ∧
          (test_request timeout o).1 = false ∧
          (test_request timeout o).2.isSome = true)) ∧
    (test_request 60 (ReqOutcome.response 200 none "not json")).1 = false ∧
    (test_request 60 (ReqOutcome.response 200
        (some (Json.obj [("choices", Json.arr [])])) "")).1 = false := by
  refine ⟨fun timeout o => ?_, rfl, rfl⟩
  cases h : tryBody timeout o with
  | ok r => exact Or.inl ⟨r, rfl, by simp [test_request, h, handle]⟩
  | error e =>
    refine Or.inr ⟨e, rfl, ?_⟩
    cases e <;> simp [test_request, h, handle]

/-! ### Phase 2: bisection -/

/-- Claim C1: the code violates the bracketing invariant.  With the
monotone oracle of true limit 495000 and the script's constants, Phase 1
establishes the bounds `(knownGood, knownBad) = (490000, 500000)`, which
satisfy `knownGood ≤ limit < knownBad`; the first bisection update probes
the midpoint 495000, which succeeds, and sets the lower bound to
`495001 > limit`, breaking the invariant. -/
theorem bisection_update_breaks_invariant :
    ((490000:Int) ≤ 495000 ∧ (495000:Int) < 500000) ∧
    phase1Loop (fun n => decide (n ≤ (495000:Int))) 1000 10000 2 500000 none
      = some (some 490000, some 500000,
          [Event.probe 500000 false, Event.sleep, Event.probe 490000 true]) ∧
    bsStep (fun n => decide (n ≤ (495000:Int))) (490000, 500000, 490000)
      = (495001, 500000, 495000) ∧
    ¬ ((495001:Int) ≤ 495000) := by
  refine ⟨by decide, by decide, by decide, by decide⟩

/-- Claim C2: the bisection iteration does not set the bounds to the
midpoint.  At the state `(min_len, max_len) = (4, 7)` the midpoint is 5;
on success the code sets `min_len = 6 = mid + 1` (not 5), and on failure
it sets `max_len = 4 = mid - 1` (not 5). -/
theorem bisection_update_off_by_one :
    ((4:Int) + 7) / 2 = 5 ∧
    bsStep (fun _ => true) (4, 7, 4) = (6, 7, 5) ∧ (6:Int) ≠ 5 ∧
    bsStep (fun _ => false) (4, 7, 4) = (4, 4, 4) ∧ (4:Int) ≠ 5 := by
  refine ⟨by decide, by decide, by decide, by decide, by decide⟩

lemma bsLoop_exit {oracle : Int → Bool} {step : Int} (fuel : Nat)
    {mn mx l : Int} (hw : mx - mn ≤ step) :
    bsLoop oracle step fuel mn mx l = some (mn, mx, l, []) := by
  cases fuel <;> rw [bsLoop, if_pos hw]

/-- When `bsLoop` returns, the loop condition has failed: the final
interval has width at most `step`. -/
lemma bsLoop_exit_width {oracle : Int → Bool} {step : Int} :
    ∀ (fuel : Nat) (mn mx l : Int) (out : Int × Int × Int × List Event),
      bsLoop oracle step fuel mn mx l = some out → out.2.1 - out.1 ≤ step := by
  intro fuel
  induction fuel with
  | zero =>
    intro mn mx l out h
    rw [bsLoop] at h
    by_cases hw : mx - mn ≤ step
    · rw [if_pos hw] at h
      cases h
      simpa using hw
    · rw [if_neg hw] at h
      cases h
  | succ f ih =>
    intro mn mx l out h
    rw [bsLoop] at h
    by_cases hw : mx - mn ≤ step
    · rw [if_pos hw] at h
      cases h
      simpa using hw
    · simp only [if_neg hw] at h
      cases hb : bsLoop oracle step f (bsStep oracle (mn, mx, l)).1
          (bsStep oracle (mn, mx, l)).2.1 (bsStep oracle (mn, mx, l)).2.2 with
      | none => rw [hb] at h; cases h
      | some out' =>
        obtain ⟨a, b, c, evs⟩ := out'
        rw [hb] at h
        cases h
        simpa using ih _ _ _ _ hb

/-- The tracked `last_success` returned by `bsLoop` is the last probed
length that succeeded, or the initial value when no probe succeeded. -/
lemma bsLoop_last {oracle : Int → Bool} {step : Int} :
    ∀ (fuel : Nat) (mn mx l : Int) (a b c : Int) (evs : List Event),
      bsLoop oracle step fuel mn mx l = some (a, b, c, evs) →
        c = lastSuccess l evs := by
  intro fuel
  induction fuel with
  | zero =>
    intro mn mx l a b c evs h
    rw [bsLoop] at h
    by_cases hw : mx - mn ≤ step
    · rw [if_pos hw] at h
      cases h
      rfl
    · rw [if_neg hw] at h
      cases h
  | succ f ih =>
    intro mn mx l a b c evs h
    rw [bsLoop] at h
    by_cases hw : mx - mn ≤ step
    · rw [if_pos hw] at h
      cases h
      rfl
    · simp only [if_neg hw] at h
      cases hb : bsLoop oracle step f (bsStep oracle (mn, mx, l)).1
          (bsStep oracle (mn, mx, l)).2.1 (bsStep oracle (mn, mx, l)).2.2 with
      | none => rw [hb] at h; cases h
      | some out' =>
        obtain ⟨a', b', c', evs'⟩ := out'
        rw [hb] at h
        cases h
        cases hok : oracle ((mn + mx) / 2) with
        | true =>
          simp [bsStep, hok] at hb
          simpa [lastSuccess] using ih _ _ _ _ _ _ _ hb
        | false =>
          simp [bsStep, hok] at hb
          simpa [lastSuccess] using ih _ _ _ _ _ _ _ hb

/-- Every probe event recorded by `bsLoop` reports the oracle's actual
outcome at that length. -/
lemma bsLoop_probes {oracle : Int → Bool} {step : Int} :
    ∀ (fuel : Nat) (mn mx l : Int) (out : Int × Int × Int × List Event),
      bsLoop oracle step fuel mn mx l = some out →
      ∀ len ok, Event.probe len ok ∈ out.2.2.2 → oracle len = ok := by
  intro fuel
  induction fuel with
  | zero =>
    intro mn mx l out h
    rw [bsLoop] at h
    by_cases hw : mx - mn ≤ step
    · rw [if_pos hw] at h
      cases h
      intro len ok hmem
      simp at hmem
    · rw [if_neg hw] at h
      cases h
  | succ f ih =>
    intro mn mx l out h
    rw [bsLoop] at h
    by_cases hw : mx - mn ≤ step
    · rw [if_pos hw] at h
      cases h
      intro len ok hmem
      simp at hmem
    · simp only [if_neg hw] at h
      cases hb : bsLoop oracle step f (bsStep oracle (mn, mx, l)).1
          (bsStep oracle (mn, mx, l)).2.1 (bsStep oracle (mn, mx, l)).2.2 with
      | none => rw [hb] at h; cases h
      | some out' =>
        obtain ⟨a, b, c, evs⟩ := out'
        rw [hb] at h
        cases h
        intro len ok hmem
        rcases List.mem_cons.1 hmem with heq | hmem'
        · cases heq
          rfl
        · rcases List.mem_cons.1 hmem' with heq | hmem''
          · cases heq
          · exact ih _ _ _ _ hb len ok hmem''

/-- With a positive `step`, fuel equal to the initial interval width is
enough for the bisection loop to reach its exit condition. -/
lemma bsLoop_total {oracle : Int → Bool} {step : Int} (hs : 0 < step) :
    ∀ (fuel : Nat) (mn mx l : Int), (mx - mn).toNat ≤ fuel →
      ∃ out, bsLoop oracle step fuel mn mx l = some out := by
  intro fuel
  induction fuel with
  | zero =>
    intro mn mx l hfuel
    have hw : mx - mn ≤ step := by omega
    exact ⟨_, bsLoop_exit 0 hw⟩
  | succ f ih =>
    intro mn mx l hfuel
    by_cases hw : mx - mn ≤ step
    · exact ⟨_, bsLoop_exit (f + 1) hw⟩
    · have hw' : step < mx - mn := by omega
      have hmid1 : mn ≤ (mn + mx) / 2 := by omega
      have hmid2 : (mn + mx) / 2 ≤ mx - 1 := by omega
      cases hok : oracle ((mn + mx) / 2) with
      | true =>
        obtain ⟨⟨a, b, c, evs⟩, hout⟩ :=
          ih ((mn + mx) / 2 + 1) mx ((mn + mx) / 2) (by omega)
        refine ⟨(a, b, c,
          Event.probe ((mn + mx) / 2) true :: Event.sleep :: evs), ?_⟩
        rw [bsLoop, if_neg hw]
        simp [bsStep, hok, hout]
      | false =>
        obtain ⟨⟨a, b, c, evs⟩, hout⟩ :=
          ih mn ((mn + mx) / 2 - 1) l (by omega)
        refine ⟨(a, b, c,
          Event.probe ((mn + mx) / 2) false :: Event.sleep :: evs), ?_⟩
        rw [bsLoop, if_neg hw]
        simp [bsStep, hok, hout]

/-- Claim C3: for every positive `precisionStep` and every sequence of
probe outcomes, the bisection loop terminates (fuel equal to the initial
interval width suffices); at exit the interval width is at most
`precisionStep`; and `binary_search` returns the last length whose probe
succeeded, or the lower bound it was entered with when no probe
succeeded (`lastSuccess min_len evs`). -/
theorem bisection_terminates (oracle : Int → Bool)
    (min_len max_len step : Int) (hs : 0 < step) :
    ∃ (mn mx last : Int) (evs : List Event),
      bsLoop oracle step ((max_len - min_len).toNat) min_len max_len min_len
        = some (mn, mx, last, evs) ∧
      mx - mn ≤ step ∧
      binary_search oracle min_len max_len step ((max_len - min_len).toNat)
        = some (last, evs) ∧
      last = lastSuccess min_len evs ∧
      (∀ len ok, Event.probe len ok ∈ evs → oracle len = ok) := by
  obtain ⟨⟨mn, mx, last, evs⟩, h⟩ :=
    bsLoop_total hs ((max_len - min_len).toNat) min_len max_len min_len le_rfl
  refine ⟨mn, mx, last, evs, h, ?_, ?_, ?_, ?_⟩
  · simpa using bsLoop_exit_width _ _ _ _ _ h
  · simp [binary_search, h]
  · exact bsLoop_last _ _ _ _ _ _ _ _ h
  · exact fun len ok hm => bsLoop_probes _ _ _ _ _ h len ok hm

/-- Claim C3, witness: oracle with true limit 5, entry interval `[4, 7]`,
precision 1: the loop probes 5 (success) and stops with interval `(6, 7)`
of width 1, returning the last success 5. -/
theorem bisection_terminates_witness :
    (0:Int) < 1 ∧
    ∃ (mn mx last : Int) (evs : List Event),
      bsLoop (fun n => decide (n ≤ (5:Int))) 1 (((7:Int) - 4).toNat) 4 7 4
        = some (mn, mx, last, evs) ∧
      mx - mn ≤ 1 ∧
      binary_search (fun n => decide (n ≤ (5:Int))) 4 7 1 (((7:Int) - 4).toNat)
        = some (last, evs) ∧
      last = lastSuccess 4 evs ∧
      (∀ len ok, Event.probe len ok ∈ evs →
          (fun n => decide (n ≤ (5:Int))) len = ok) :=
  ⟨by decide, bisection_terminates (fun n => decide (n ≤ (5:Int))) 4 7 1 (by decide)⟩

/-! ### Phase 1 and the driver -/

lemma testedLengths_nil : testedLengths [] = [] := rfl

lemma testedLengths_probe (l : Int) (ok : Bool) (rest : List Event) :
    testedLengths (Event.probe l ok :: rest) = l :: testedLengths rest := rfl

lemma testedLengths_sleep (rest : List Event) :
    testedLengths (Event.sleep :: rest) = testedLengths rest := rfl

lemma phase1Loop_exit {oracle : Int → Bool} {minL stepS : Int} (fuel : Nat)
    {current : Int} {ff : Option Int} (hc : current < minL) :
    phase1Loop oracle minL stepS fuel current ff = some (none, ff, []) := by
  cases fuel <;> rw [phase1Loop, if_pos hc]

/-- The lengths probed by the Phase 1 loop form the arithmetic sequence
`current, current - stepS, current - 2*stepS, ...`. -/
lemma phase1Loop_tested {oracle : Int → Bool} {minL stepS : Int} :
    ∀ (fuel : Nat) (current : Int) (ff₀ ls ff : Option Int) (evs : List Event),
      phase1Loop oracle minL stepS fuel current ff₀ = some (ls, ff, evs) →
      ∀ i : Nat, i < (testedLengths evs).length →
        (testedLengths evs)[i]? = some (current - (i : Int) * stepS) := by
  intro fuel
  induction fuel with
  | zero =>
    intro current ff₀ ls ff evs h
    rw [phase1Loop] at h
    by_cases hc : current < minL
    · rw [if_pos hc] at h
      cases h
      intro i hi
      simp [testedLengths_nil] at hi
    · rw [if_neg hc] at h
      cases h
  | succ f ih =>
    intro current ff₀ ls ff evs h
    rw [phase1Loop] at h
    by_cases hc : current < minL
    · rw [if_pos hc] at h
      cases h
      intro i hi
      simp [testedLengths_nil] at hi
    · rw [if_neg hc] at h
      cases hoc : oracle current with
      | true =>
        simp only [hoc, if_true] at h
        cases h
        intro i hi
        rw [testedLengths_probe, testedLengths_nil] at hi ⊢
        cases i with
        | zero => simp
        | succ i => simp at hi
      | false =>
        simp only [hoc, if_false] at h
        cases hb : phase1Loop oracle minL stepS f (current - stepS)
            (some current) with
        | none => rw [hb] at h; cases h
        | some out' =>
          obtain ⟨ls', ff', evs'⟩ := out'
          rw [hb] at h
          cases h
          intro i hi
          rw [testedLengths_probe, testedLengths_sleep] at hi ⊢
          cases i with
          | zero => simp
          | succ i =>
            rw [List.getElem?_cons_succ]
            rw [ih _ _ _ _ _ hb i (by simpa using Nat.lt_of_succ_lt_succ hi)]
            congr 1
            push_cast
            ring

/-- Every tested length except the last failed its probe. -/
lemma phase1Loop_failed_before_last {oracle : Int → Bool} {minL stepS : Int} :
    ∀ (fuel : Nat) (current : Int) (ff₀ ls ff : Option Int) (evs : List Event),
      phase1Loop oracle minL stepS fuel current ff₀ = some (ls, ff, evs) →
      ∀ (i : Nat) (len : Int), i + 1 < (testedLengths evs).length →
        (testedLengths evs)[i]? = some len →
        oracle len = false := by
  intro fuel
  induction fuel with
  | zero =>
    intro current ff₀ ls ff evs h
    rw [phase1Loop] at h
    by_cases hc : current < minL
    · rw [if_pos hc] at h
      cases h
      intro i len hi
      simp [testedLengths_nil] at hi
    · rw [if_neg hc] at h
      cases h
  | succ f ih =>
    intro current ff₀ ls ff evs h
    rw [phase1Loop] at h
    by_cases hc : current < minL
    · rw [if_pos hc] at h
      cases h
      intro i len hi
      simp [testedLengths_nil] at hi
    · rw [if_neg hc] at h
      cases hoc : oracle current with
      | true =>
        simp only [hoc, if_true] at h
        cases h
        intro i len hlt
        rw [testedLengths_probe, testedLengths_nil] at hlt
        simp at hlt
      | false =>
        simp only [hoc, if_false] at h
        cases hb : phase1Loop oracle minL stepS f (current - stepS)
            (some current) with
        | none => rw [hb] at h; cases h
        | some out' =>
          obtain ⟨ls', ff', evs'⟩ := out'
          rw [hb] at h
          cases h
          intro i len hlt hget
          rw [testedLengths_probe, testedLengths_sleep] at hlt hget
          cases i with
          | zero =>
            rw [List.getElem?_cons_zero] at hget
            cases hget
            exact hoc
          | succ i =>
            rw [List.getElem?_cons_succ] at hget
            exact ih _ _ _ _ _ hb i len
              (Nat.lt_of_succ_lt_succ hlt) hget

/-- When Phase 1 reports a working length, it is the last tested length
and its probe succeeded. -/
lemma phase1Loop_success {oracle : Int → Bool} {minL stepS : Int} :
    ∀ (fuel : Nat) (current : Int) (ff₀ ls ff : Option Int) (evs : List Event),
      phase1Loop oracle minL stepS fuel current ff₀ = some (ls, ff, evs) →
      ∀ l, ls = some l →
        (testedLengths evs).getLast? = some l ∧ oracle l = true := by
  intro fuel
  induction fuel with
  | zero =>
    intro current ff₀ ls ff evs h
    rw [phase1Loop] at h
    by_cases hc : current < minL
    · rw [if_pos hc] at h
      cases h
      intro l hl
      cases hl
    · rw [if_neg hc] at h
      cases h
  | succ f ih =>
    intro current ff₀ ls ff evs h
    rw [phase1Loop] at h
    by_cases hc : current < minL
    · rw [if_pos hc] at h
      cases h
      intro l hl
      cases hl
    · rw [if_neg hc] at h
      cases hoc : oracle current with
      | true =>
        simp only [hoc, if_true] at h
        cases h
        intro l hl
        cases hl
        exact ⟨by simp [testedLengths_probe, testedLengths_nil], hoc⟩
      | false =>
        simp only [hoc, if_false] at h
        cases hb : phase1Loop oracle minL stepS f (current - stepS)
            (some current) with
        | none => rw [hb] at h; cases h
        | some out' =>
          obtain ⟨ls', ff', evs'⟩ := out'
          rw [hb] at h
          cases h
          intro l hl
          obtain ⟨h1, h2⟩ := ih _ _ _ _ _ hb l hl
          refine ⟨?_, h2⟩
          rw [testedLengths_probe, testedLengths_sleep]
          cases hte : testedLengths evs' with
          | nil => rw [hte] at h1; cases h1
          | cons a t =>
            rw [hte] at h1
            rw [List.getLast?_cons_cons]
            exact h1

/-- When Phase 1 finds no working length, every tested length failed and
the next length to test would be below `minLength`. -/
lemma phase1Loop_exhausted {oracle : Int → Bool} {minL stepS : Int} :
    ∀ (fuel : Nat) (current : Int) (ff₀ ls ff : Option Int) (evs : List Event),
      phase1Loop oracle minL stepS fuel current ff₀ = some (ls, ff, evs) →
      ls = none →
        (∀ len ∈ testedLengths evs, oracle len = false) ∧
        current - ((testedLengths evs).length : Int) * stepS < minL := by
  intro fuel
  induction fuel with
  | zero =>
    intro current ff₀ ls ff evs h
    rw [phase1Loop] at h
    by_cases hc : current < minL
    · rw [if_pos hc] at h
      cases h
      intro _
      refine ⟨fun len hmem => ?_, by simpa [testedLengths_nil] using hc⟩
      simp [testedLengths_nil] at hmem
    · rw [if_neg hc] at h
      cases h
  | succ f ih =>
    intro current ff₀ ls ff evs h
    rw [phase1Loop] at h
    by_cases hc : current < minL
    · rw [if_pos hc] at h
      cases h
      intro _
      refine ⟨fun len hmem => ?_, by simpa [testedLengths_nil] using hc⟩
      simp [testedLengths_nil] at hmem
    · rw [if_neg hc] at h
      cases hoc : oracle current with
      | true =>
        simp only [hoc, if_true] at h
        cases h
        intro hls
        cases hls
      | false =>
        simp only [hoc, if_false] at h
        cases hb : phase1Loop oracle minL stepS f (current - stepS)
            (some current) with
        | none => rw [hb] at h; cases h
        | some out' =>
          obtain ⟨ls', ff', evs'⟩ := out'
          rw [hb] at h
          cases h
          intro hls
          obtain ⟨hall, hlen⟩ := ih _ _ _ _ _ hb hls
          constructor
          · intro len hmem
            rw [testedLengths_probe, testedLengths_sleep] at hmem
            rcases List.mem_cons.1 hmem with rfl | hmem'
            · exact hoc
            · exact hall len hmem'
          · rw [testedLengths_probe, testedLengths_sleep, List.length_cons]
            have heq : current - (((testedLengths evs').length : Int) + 1) * stepS
                = (current - stepS) - ((testedLengths evs').length : Int) * stepS := by
              ring
            push_cast
            rw [heq]
            exact hlen

/-- With a positive step size, fuel one more than the distance from the
starting length to `minLength` is enough for the Phase 1 loop. -/
lemma phase1Loop_total {oracle : Int → Bool} {minL stepS : Int}
    (hs : 0 < stepS) :
    ∀ (fuel : Nat) (current : Int) (ff₀ : Option Int),
      current < minL ∨ (current - minL).toNat < fuel →
      ∃ out, phase1Loop oracle minL stepS fuel current ff₀ = some out := by
  intro fuel
  induction fuel with
  | zero =>
    intro current ff₀ hfuel
    have hc : current < minL := by omega
    exact ⟨_, phase1Loop_exit _ hc⟩
  | succ f ih =>
    intro current ff₀ hfuel
    by_cases hc : current < minL
    · exact ⟨_, phase1Loop_exit _ hc⟩
    · cases hoc : oracle current with
      | true =>
        refine ⟨(some current, ff₀, [Event.probe current true]), ?_⟩
        rw [phase1Loop, if_neg hc]
        simp [hoc]
      | false =>
        have hfuel' : current - stepS < minL ∨
            (current - stepS - minL).toNat < f := by omega
        obtain ⟨⟨ls, ff, evs⟩, hout⟩ :=
          ih (current - stepS) (some current) hfuel'
        refine ⟨(ls, ff, Event.probe current false :: Event.sleep :: evs), ?_⟩
        rw [phase1Loop, if_neg hc]
        simp [hoc, hout]

/-- In the Phase 1 trace, every failed probe is immediately followed by a
delay. -/
lemma phase1Loop_failed_slept {oracle : Int → Bool} {minL stepS : Int} :
    ∀ (fuel : Nat) (current : Int) (ff₀ ls ff : Option Int) (evs : List Event),
      phase1Loop oracle minL stepS fuel current ff₀ = some (ls, ff, evs) →
      failedProbesSlept evs = true := by
  intro fuel
  induction fuel with
  | zero =>
    intro current ff₀ ls ff evs h
    rw [phase1Loop] at h
    by_cases hc : current < minL
    · rw [if_pos hc] at h
      cases h
      rfl
    · rw [if_neg hc] at h
      cases h
  | succ f ih =>
    intro current ff₀ ls ff evs h
    rw [phase1Loop] at h
    by_cases hc : current < minL
    · rw [if_pos hc] at h
      cases h
      rfl
    · rw [if_neg hc] at h
      cases hoc : oracle current with
      | true =>
        simp only [hoc, if_true] at h
        cases h
        rfl
      | false =>
        simp only [hoc, if_false] at h
        cases hb : phase1Loop oracle minL stepS f (current - stepS)
            (some current) with
        | none => rw [hb] at h; cases h
        | some out' =>
          obtain ⟨ls', ff', evs'⟩ := out'
          rw [hb] at h
          cases h
          simpa [failedProbesSlept] using ih _ _ _ _ _ hb

/-- In the Phase 1 trace, a successful probe is the final event (the loop
breaks before sleeping). -/
lemma phase1Loop_success_last_event {oracle : Int → Bool} {minL stepS : Int} :
    ∀ (fuel : Nat) (current : Int) (ff₀ ls ff : Option Int) (evs : List Event),
      phase1Loop oracle minL stepS fuel current ff₀ = some (ls, ff, evs) →
      ∀ l, Event.probe l true ∈ evs →
        evs.getLast? = some (Event.probe l true) := by
  intro fuel
  induction fuel with
  | zero =>
    intro current ff₀ ls ff evs h
    rw [phase1Loop] at h
    by_cases hc : current < minL
    · rw [if_pos hc] at h
      cases h
      intro l hmem
      simp at hmem
    · rw [if_neg hc] at h
      cases h
  | succ f ih =>
    intro current ff₀ ls ff evs h
    rw [phase1Loop] at h
    by_cases hc : current < minL
    · rw [if_pos hc] at h
      cases h
      intro l hmem
      simp at hmem
    · rw [if_neg hc] at h
      cases hoc : oracle current with
      | true =>
        simp only [hoc, if_true] at h
        cases h
        intro l hmem
        have heq := List.mem_singleton.1 hmem
        injection heq with h1 h2
        subst h1
        rfl
      | false =>
        simp only [hoc, if_false] at h
        cases hb : phase1Loop oracle minL stepS f (current - stepS)
            (some current) with
        | none => rw [hb] at h; cases h
        | some out' =>
          obtain ⟨ls', ff', evs'⟩ := out'
          rw [hb] at h
          cases h
          intro l hmem
          rcases List.mem_cons.1 hmem with heq | hmem'
          · cases heq
          · rcases List.mem_cons.1 hmem' with heq | hmem''
            · cases heq
            · have hLast := ih _ _ _ _ _ hb l hmem''
              cases evs' with
              | nil => simp at hmem''
              | cons a t =>
                rw [List.getLast?_cons_cons, List.getLast?_cons_cons]
                exact hLast

/-- In the Phase 2 trace, every probe is immediately followed by a delay. -/
lemma bsLoop_all_slept {oracle : Int → Bool} {step : Int} :
    ∀ (fuel : Nat) (mn mx l : Int) (out : Int × Int × Int × List Event),
      bsLoop oracle step fuel mn mx l = some out →
      allProbesSlept out.2.2.2 = true := by
  intro fuel
  induction fuel with
  | zero =>
    intro mn mx l out h
    rw [bsLoop] at h
    by_cases hw : mx - mn ≤ step
    · rw [if_pos hw] at h
      cases h
      rfl
    · rw [if_neg hw] at h
      cases h
  | succ f ih =>
    intro mn mx l out h
    rw [bsLoop] at h
    by_cases hw : mx - mn ≤ step
    · rw [if_pos hw] at h
      cases h
      rfl
    · simp only [if_neg hw] at h
      cases hb : bsLoop oracle step f (bsStep oracle (mn, mx, l)).1
          (bsStep oracle (mn, mx, l)).2.1 (bsStep oracle (mn, mx, l)).2.2 with
      | none => rw [hb] at h; cases h
      | some out' =>
        obtain ⟨a, b, c, evs⟩ := out'
        rw [hb] at h
        cases h
        simpa [allProbesSlept] using ih _ _ _ _ hb

/-- Claim C7: with a positive step size, Phase 1 terminates and its tested
lengths start at `startingLength` and decrease by exactly `stepSize`; all
but the last tested length failed; if a working length is reported it is
the last tested length and its probe succeeded; and if no working length
is found, every tested length failed, the next length would have dropped
below `minLength`, and `find_char_limit` returns without invoking
Phase 2. -/
theorem phase1_descent (oracle : Int → Bool) (start stepS minL : Int)
    (hs : 0 < stepS) :
    ∃ (ls ff : Option Int) (evs : List Event),
      phase1Loop oracle minL stepS ((start - minL).toNat + 1) start none
        = some (ls, ff, evs) ∧
      (∀ i : Nat, i < (testedLengths evs).length →
        (testedLengths evs)[i]? = some (start - (i : Int) * stepS)) ∧
      (∀ (i : Nat) (len : Int), i + 1 < (testedLengths evs).length →
        (testedLengths evs)[i]? = some len → oracle len = false) ∧
      (∀ l, ls = some l →
        (testedLengths evs).getLast? = some l ∧ oracle l = true) ∧
      (ls = none →
        (∀ len ∈ testedLengths evs, oracle len = false) ∧
        start - ((testedLengths evs).length : Int) * stepS < minL) ∧
      (ls = none → ∀ (prec : Int) (fuel2 : Nat),
        find_char_limit oracle start stepS minL prec
            ((start - minL).toNat + 1) fuel2
          = some ⟨none, false, evs, []⟩) := by
  obtain ⟨⟨ls, ff, evs⟩, h⟩ :=
    @phase1Loop_total oracle minL stepS hs ((start - minL).toNat + 1)
      start none (by omega)
  refine ⟨ls, ff, evs, h,
    phase1Loop_tested _ _ _ _ _ _ h,
    phase1Loop_failed_before_last _ _ _ _ _ _ h,
    phase1Loop_success _ _ _ _ _ _ h,
    phase1Loop_exhausted _ _ _ _ _ _ h,
    fun hnone prec fuel2 => ?_⟩
  cases hnone
  simp [find_char_limit, h]

/-- Claim C7, witness: with an all-failing oracle, starting length 3, step
1, minimum 1, Phase 1 probes 3, 2, 1, all fail, and the search ends with
no working length and no Phase 2. -/
theorem phase1_descent_witness :
    (0:Int) < 1 ∧
    ∃ (ls ff : Option Int) (evs : List Event),
      phase1Loop (fun _ => false) 1 1 (((3:Int) - 1).toNat + 1) 3 none
        = some (ls, ff, evs) ∧
      (∀ i : Nat, i < (testedLengths evs).length →
        (testedLengths evs)[i]? = some (3 - (i : Int) * 1)) ∧
      (∀ (i : Nat) (len : Int), i + 1 < (testedLengths evs).length →
        (testedLengths evs)[i]? = some len → (fun _ => false) len = false) ∧
      (∀ l, ls = some l →
        (testedLengths evs).getLast? = some l ∧ (fun _ => false) l = true) ∧
      (ls = none →
        (∀ len ∈ testedLengths evs, (fun _ => false) len = false) ∧
        3 - ((testedLengths evs).length : Int) * 1 < 1) ∧
      (ls = none → ∀ (prec : Int) (fuel2 : Nat),
        find_char_limit (fun _ => false) 3 1 1 prec
            (((3:Int) - 1).toNat + 1) fuel2
          = some ⟨none, false, evs, []⟩) :=
  ⟨by decide, phase1_descent (fun _ => false) 3 1 1 (by decide)⟩

/-- Claim C8: if the very first probe (at `startingLength`) succeeds,
Phase 1 stops immediately, Phase 2 is never invoked (there is no failing
upper bound), and the final answer is `startingLength` itself. -/
theorem first_success_skips_phase2 (oracle : Int → Bool)
    (start stepS minL prec : Int) (fuel2 : Nat)
    (hok : oracle start = true) (hge : minL ≤ start) :
    find_char_limit oracle start stepS minL prec 1 fuel2
      = some ⟨some start, false, [Event.probe start true], []⟩ := by
  have h1 : phase1Loop oracle minL stepS 1 start none
      = some (some start, none, [Event.probe start true]) := by
    rw [phase1Loop, if_neg (not_lt.2 hge)]
    simp [hok]
  simp [find_char_limit, h1]

/-- Claim C8, witness: an oracle that succeeds at 500000 with the script's
constants — the run consists of the single successful probe and reports
500000 without bisection. -/
theorem first_success_skips_phase2_witness :
    find_char_limit (fun _ => true) 500000 10000 1000 500 1 0
      = some ⟨some 500000, false, [Event.probe 500000 true], []⟩ :=
  first_success_skips_phase2 (fun _ => true) 500000 10000 1000 500 0
    rfl (by decide)

/-- Claim C9, counterexample: a run in which the very first probe succeeds
produces the trace `[probe 500000 true]` with no delay after the probe —
the Phase 1 loop breaks out on success before reaching
`await asyncio.sleep(2)`, so a delay is not imposed after every probe. -/
theorem no_delay_after_phase1_success :
    find_char_limit (fun _ => true) 500000 10000 1000 500 1 0
      = some ⟨some 500000, false, [Event.probe 500000 true], []⟩ ∧
    allProbesSlept ([Event.probe 500000 true] ++ []) = false := by
  refine ⟨by decide, by decide⟩

/-- Claim C9, amended: in every terminating run, every failed probe is
immediately followed by the fixed delay, and every Phase 2 probe
(successful or not) is immediately followed by the fixed delay; but a
successful Phase 1 probe is the last Phase 1 event — the loop breaks
before sleeping, so no delay follows it. -/
theorem delays_follow_probes (oracle : Int → Bool)
    (start stepS minL prec : Int) (fuel1 fuel2 : Nat) (r : RunResult)
    (h : find_char_limit oracle start stepS minL prec fuel1 fuel2 = some r) :
    failedProbesSlept r.phase1Events = true ∧
    allProbesSlept r.phase2Events = true ∧
    (∀ l, Event.probe l true ∈ r.phase1Events →
      r.phase1Events.getLast? = some (Event.probe l true)) := by
  unfold find_char_limit at h
  cases hp : phase1Loop oracle minL stepS fuel1 start none with
  | none => rw [hp] at h; cases h
  | some p =>
    obtain ⟨ls, ff, evs⟩ := p
    rw [hp] at h
    cases ls with
    | none =>
      cases h
      exact ⟨phase1Loop_failed_slept _ _ _ _ _ _ hp, rfl,
        phase1Loop_success_last_event _ _ _ _ _ _ hp⟩
    | some l =>
      cases ff with
      | none =>
        cases h
        exact ⟨phase1Loop_failed_slept _ _ _ _ _ _ hp, rfl,
          phase1Loop_success_last_event _ _ _ _ _ _ hp⟩
      | some f =>
        by_cases hcond : (f != 0 && l != 0) = true
        · simp only [hcond, if_true] at h
          cases hb : bsLoop oracle prec fuel2 l f l with
          | none => rw [hb] at h; cases h
          | some q =>
            obtain ⟨a, b, c, evs2⟩ := q
            rw [hb] at h
            cases h
            exact ⟨phase1Loop_failed_slept _ _ _ _ _ _ hp,
              by simpa using bsLoop_all_slept _ _ _ _ _ hb,
              phase1Loop_success_last_event _ _ _ _ _ _ hp⟩
        · simp only [Bool.not_eq_true] at hcond
          simp only [hcond, if_false] at h
          cases h
          exact ⟨phase1Loop_failed_slept _ _ _ _ _ _ hp, rfl,
            phase1Loop_success_last_event _ _ _ _ _ _ hp⟩

/-- Claim C9, amended, witness: a concrete run (limit 495000, script
constants) in which both phases execute; every failed probe and every
Phase 2 probe is followed by the delay, and the successful Phase 1 probe
is the final Phase 1 event. -/
theorem delays_follow_probes_witness :
    failedProbesSlept (RunResult.phase1Events ⟨some 495000, true,
        [Event.probe 500000 false, Event.sleep, Event.probe 490000 true],
        [Event.probe 495000 true, Event.sleep, Event.probe 497500 false,
         Event.sleep, Event.probe 496250 false, Event.sleep,
         Event.probe 495625 false, Event.sleep, Event.probe 495312 false,
         Event.sleep]⟩) = true ∧
    allProbesSlept (RunResult.phase2Events ⟨some 495000, true,
        [Event.probe 500000 false, Event.sleep, Event.probe 490000 true],
        [Event.probe 495000 true, Event.sleep, Event.probe 497500 false,
         Event.sleep, Event.probe 496250 false, Event.sleep,
         Event.probe 495625 false, Event.sleep, Event.probe 495312 false,
         Event.sleep]⟩) = true ∧
    (∀ l, Event.probe l true ∈ RunResult.phase1Events ⟨some 495000, true,
        [Event.probe 500000 false, Event.sleep, Event.probe 490000 true],
        [Event.probe 495000 true, Event.sleep, Event.probe 497500 false,
         Event.sleep, Event.probe 496250 false, Event.sleep,
         Event.probe 495625 false, Event.sleep, Event.probe 495312 false,
         Event.sleep]⟩ →
      (RunResult.phase1Events ⟨some 495000, true,
        [Event.probe 500000 false, Event.sleep, Event.probe 490000 true],
        [Event.probe 495000 true, Event.sleep, Event.probe 497500 false,
         Event.sleep, Event.probe 496250 false, Event.sleep,
         Event.probe 495625 false, Event.sleep, Event.probe 495312 false,
         Event.sleep]⟩).getLast? = some (Event.probe l true)) :=
  delays_follow_probes (fun n => decide (n ≤ (495000:Int)))
    500000 10000 1000 500 3 20 _ (by decide)

end CharLimit
